import Mathlib

/-!
Verification development for the `go-oauth2-pg` repository: a Postgres
storage backend (client store, token store) for the go-oauth2 framework.

The Go sources (`token_store.go`, `client_store.go`, `errors.go`,
`logger.go`) are shallowly embedded below.  The database is modelled as a
list of rows, a statement fault is injected through an explicit
`Option PgErr` parameter (`none` means the statement succeeded), and a Go
runtime panic is a distinct outcome of type `GoResult`.  Machine time is
modelled as `Int` (instants and durations), with `time.Add` as `+`.
-/

/-- GoTime models a `time.Time` instant as an integer (nanoseconds). -/
abbrev GoTime := Int

/-- GoDuration models a `time.Duration` as an integer (nanoseconds). -/
abbrev GoDuration := Int

/-- PgErr models an error value returned by the pgx connection pool:
`noRows` is `pgx.ErrNoRows`, `fault s` is any other failure (I/O fault,
syntax error, serialization fault) carrying its message. -/
inductive PgErr where
  | noRows : PgErr
  | fault : String → PgErr
deriving DecidableEq, Repr

/-- GoResult models the outcome of running a Go function body: either a
normal return of a value, or a runtime panic with its message. -/
inductive GoResult (α : Type) where
  | ok : α → GoResult α
  | crash : String → GoResult α
deriving DecidableEq, Repr

/-- Model of Go `errors.Is err target`: false when `err` is nil, otherwise
equality with the target sentinel (neither sentinel here is wrapped). -/
def errorsIs : Option PgErr → PgErr → Bool
  | none, _ => false
  | some e, t => e == t

/-- Json models the structured values produced and consumed by Go
`encoding/json` as used by the stores (the `data JSONB` column payload). -/
inductive Json where
  | null : Json
  | str : String → Json
  | num : Int → Json
  | obj : List (String × Json) → Json

/-- Token embeds the go-oauth2 `models.Token` record as read through the
`oauth2.TokenInfo` getters the store calls: the three grant strings and
their issue-time / time-to-live pairs, plus the remaining serialized
metadata fields. -/
structure Token where
  clientID : String
  userID : String
  redirectURI : String
  scope : String
  code : String
  codeCreateAt : GoTime
  codeExpiresIn : GoDuration
  access : String
  accessCreateAt : GoTime
  accessExpiresIn : GoDuration
  refresh : String
  refreshCreateAt : GoTime
  refreshExpiresIn : GoDuration
deriving DecidableEq, Repr

/-- Model of `json.Marshal` on a `models.Token` value: the canonical field
layout of the serialized token (marshalling a concrete struct of strings
and integers never fails in Go). -/
def encodeToken (t : Token) : Json :=
  .obj [("ClientID", .str t.clientID),
        ("UserID", .str t.userID),
        ("RedirectURI", .str t.redirectURI),
        ("Scope", .str t.scope),
        ("Code", .str t.code),
        ("CodeCreateAt", .num t.codeCreateAt),
        ("CodeExpiresIn", .num t.codeExpiresIn),
        ("Access", .str t.access),
        ("AccessCreateAt", .num t.accessCreateAt),
        ("AccessExpiresIn", .num t.accessExpiresIn),
        ("Refresh", .str t.refresh),
        ("RefreshCreateAt", .num t.refreshCreateAt),
        ("RefreshExpiresIn", .num t.refreshExpiresIn)]

/-- Model of `json.Unmarshal` into a concrete `models.Token` variable (as
`scanToTokenInfo` does): inverts the canonical layout written by
`encodeToken`, and fails with a type error on any other payload. -/
def decodeToken : Json → Except String Token
  | .obj [("ClientID", .str cid),
          ("UserID", .str uid),
          ("RedirectURI", .str ruri),
          ("Scope", .str sc),
          ("Code", .str c),
          ("CodeCreateAt", .num cca),
          ("CodeExpiresIn", .num cei),
          ("Access", .str a),
          ("AccessCreateAt", .num aca),
          ("AccessExpiresIn", .num aei),
          ("Refresh", .str r),
          ("RefreshCreateAt", .num rca),
          ("RefreshExpiresIn", .num rei)] =>
      .ok ⟨cid, uid, ruri, sc, c, cca, cei, a, aca, aei, r, rca, rei⟩
  | _ => .error "json: cannot unmarshal value into Go value of type models.Token"

/-- TokenStoreItem embeds the row struct of `token_store.go`: one row of
the token table. -/
structure TokenStoreItem where
  id : Int
  code : String
  access : String
  refresh : String
  data : Json
  createdAt : GoTime
  expiresAt : GoTime

/-- TokenDB is the state of the token table: its rows in insertion order
(`SELECT` without `ORDER BY` is modelled as scanning in that order). -/
abbrev TokenDB := List TokenStoreItem

namespace TokenStore

/-- Embeds the item construction inside `TokenStore.Create`
(token_store.go lines 172-190): zero-valued item with the marshalled data
and the server timestamp, then the grant-type dispatch that fills the key
column and `ExpiresAt` (a non-empty code wins; otherwise the access leg
sets `ExpiresAt` and a non-empty refresh leg overwrites it). -/
def createItem (info : Token) (now : GoTime) : TokenStoreItem :=
  let item : TokenStoreItem :=
    { id := 0, code := "", access := "", refresh := "",
      data := encodeToken info, createdAt := now, expiresAt := 0 }
  if info.code ≠ "" then
    { item with code := info.code,
                expiresAt := info.codeCreateAt + info.codeExpiresIn }
  else
    let item1 :=
      if info.access ≠ "" then
        { item with access := info.access,
                    expiresAt := info.accessCreateAt + info.accessExpiresIn }
      else item
    if info.refresh ≠ "" then
      { item1 with refresh := info.refresh,
                   expiresAt := info.refreshCreateAt + info.refreshExpiresIn }
    else item1

/-- Embeds `TokenStore.Create` on the successful insert path: the `INSERT`
statement appends the constructed row to the table. -/
def Create (rows : TokenDB) (info : Token) (now : GoTime) : TokenDB :=
  rows ++ [createItem info now]

/-- Embeds `TokenStore.scanToTokenInfo`: a missing row surfaces the scan
error `pgx.ErrNoRows`; otherwise the data blob is unmarshalled into a
`models.Token`, any unmarshal error being returned to the caller. -/
def scanToTokenInfo (row : Option TokenStoreItem) : Except PgErr Token :=
  match row with
  | none => .error .noRows
  | some item =>
      match decodeToken item.data with
      | .ok t => .ok t
      | .error e => .error (.fault e)

/-- Embeds `TokenStore.GetByCode`: `QueryRow` of `SELECT * WHERE code = $1`
(first matching row in scan order), then `scanToTokenInfo`.  `fault`
injects an I/O failure of the query itself. -/
def GetByCode (rows : TokenDB) (code : String) (fault : Option PgErr) :
    Except PgErr Token :=
  match fault with
  | some e => .error e
  | none => scanToTokenInfo (rows.find? (fun r => r.code == code))

/-- Embeds `TokenStore.GetByAccess`: lookup on the `access_token` column. -/
def GetByAccess (rows : TokenDB) (access : String) (fault : Option PgErr) :
    Except PgErr Token :=
  match fault with
  | some e => .error e
  | none => scanToTokenInfo (rows.find? (fun r => r.access == access))

/-- Embeds `TokenStore.GetByRefresh`: lookup on the `refresh_token` column. -/
def GetByRefresh (rows : TokenDB) (refresh : String) (fault : Option PgErr) :
    Except PgErr Token :=
  match fault with
  | some e => .error e
  | none => scanToTokenInfo (rows.find? (fun r => r.refresh == refresh))

end TokenStore

/-- RemoveOutcome records everything observable about one `RemoveBy*`
call: the table rows afterwards, whether the `DELETE` statement was
issued, and the returned error (or runtime panic). -/
structure RemoveOutcome where
  rows : TokenDB
  deleteIssued : Bool
  result : GoResult (Option PgErr)

namespace TokenStore

/-- Embeds the shared body of the three `RemoveBy*` functions at a given
key column: the empty-key guard returns nil without touching the pool;
otherwise `Exec` runs the `DELETE` (removing every matching row when it
does not fault), and the result is filtered through
`if !errors.Is(err, pgx.ErrNoRows)` — a branch that evaluates
`err.Error()`, which panics with a nil-pointer dereference when `err` is
nil (the statement succeeded). -/
def removeByColumn (rows : TokenDB) (col : TokenStoreItem → String)
    (key : String) (fault : Option PgErr) : RemoveOutcome :=
  if key = "" then
    { rows := rows, deleteIssued := false, result := .ok none }
  else
    let rows1 := match fault with
      | none => rows.filter (fun r => col r ≠ key)
      | some _ => rows
    let err := fault
    if ¬ errorsIs err .noRows then
      match err with
      | none =>
          { rows := rows1, deleteIssued := true,
            result := .crash "runtime error: invalid memory address or nil pointer dereference" }
      | some e =>
          { rows := rows1, deleteIssued := true, result := .ok (some e) }
    else
      { rows := rows1, deleteIssued := true, result := .ok none }

/-- Embeds `TokenStore.RemoveByCode` (token_store.go lines 230-248). -/
def RemoveByCode (rows : TokenDB) (code : String) (fault : Option PgErr) :
    RemoveOutcome :=
  removeByColumn rows (fun r => r.code) code fault

/-- Embeds `TokenStore.RemoveByAccess` (token_store.go lines 250-268). -/
def RemoveByAccess (rows : TokenDB) (access : String) (fault : Option PgErr) :
    RemoveOutcome :=
  removeByColumn rows (fun r => r.access) access fault

/-- Embeds `TokenStore.RemoveByRefresh` (token_store.go lines 270-288). -/
def RemoveByRefresh (rows : TokenDB) (refresh : String) (fault : Option PgErr) :
    RemoveOutcome :=
  removeByColumn rows (fun r => r.refresh) refresh fault

/-- Embeds `TokenStore.cleanExpiredTokens`: one sweep runs
`DELETE FROM table WHERE expires_at <= $1` with the current time and
returns the error of the statement (a fault leaves the table unchanged). -/
def cleanExpiredTokens (rows : TokenDB) (now : GoTime) (fault : Option PgErr) :
    TokenDB × Option PgErr :=
  match fault with
  | some e => (rows, some e)
  | none => (rows.filter (fun r => decide (¬ r.expiresAt ≤ now)), none)

/-- Embeds the gate of `TokenStore.InitCleanup`: the ticker (and with it
the background goroutine) is started exactly when the configured cleanup
interval is positive.  `InitCleanup` itself returns nothing to the
caller. -/
def InitCleanup (cleanupInterval : GoDuration) : Bool :=
  decide (0 < cleanupInterval)

end TokenStore

/-- SweepState is the observable state of the background cleanup
goroutine: the token table, how many sweep iterations have run, and how
many iteration errors were logged at error level. -/
structure SweepState where
  rows : TokenDB
  sweeps : Nat
  loggedErrors : Nat

namespace TokenStore

/-- Embeds one iteration of the `for range s.cleanupTicker.C` loop body in
`InitCleanup`: run `cleanExpiredTokens`; if it returned an error, log it
at error level.  The body neither returns nor breaks, so the iteration
always completes into a new state. -/
def sweepTick (st : SweepState) (tick : GoTime × Option PgErr) : SweepState :=
  let res := cleanExpiredTokens st.rows tick.1 tick.2
  { rows := res.1,
    sweeps := st.sweeps + 1,
    loggedErrors := st.loggedErrors + (match res.2 with | some _ => 1 | none => 0) }

/-- Embeds the cleanup goroutine consuming a (finite prefix of the)
stream of ticker ticks, each tick carrying the sweep time and the fault
injected into that iteration of the `DELETE` statement. -/
def runCleanupLoop (st : SweepState) (ticks : List (GoTime × Option PgErr)) :
    SweepState :=
  ticks.foldl sweepTick st

end TokenStore

/-- Client embeds the go-oauth2 `models.Client` record as read through the
`oauth2.ClientInfo` getters the client store calls. -/
structure Client where
  id : String
  secret : String
  domain : String
  isPublic : Bool
  userID : String
deriving DecidableEq, Repr

/-- Model of `json.Marshal` on a client record: the canonical field layout
of the serialized client. -/
def encodeClient (c : Client) : Json :=
  .obj [("ID", .str c.id),
        ("Secret", .str c.secret),
        ("Domain", .str c.domain),
        ("Public", .num (if c.isPublic then 1 else 0)),
        ("UserID", .str c.userID)]

/-- Model of Go `json.Unmarshal` into a variable of the non-empty
interface type `oauth2.ClientInfo` holding nil, as `scanToClientInfo`
does (`var info oauth2.ClientInfo; json.Unmarshal(item.Data, &info)`):
JSON `null` leaves the interface nil and succeeds; any other JSON value
cannot be decoded into a non-empty interface with no concrete type, so
`encoding/json` returns an `UnmarshalTypeError`. -/
def jsonUnmarshalClientInfo : Json → Except String (Option Client)
  | .null => .ok none
  | _ => .error "json: cannot unmarshal value into Go value of type oauth2.ClientInfo"

/-- Model of pgx scanning a text-format column value into the `int64`
field `ClientStoreItem.ID`: the text is parsed as a decimal integer and
the scan fails when parsing fails (the client table stores `id` as
`VARCHAR(255)` while the row struct declares it `int64`). -/
def pgxScanTextAsInt64 (s : String) : Option Int :=
  if !s.data.isEmpty && s.data.all Char.isDigit then
    some (Int.ofNat (s.data.foldl (fun n c => 10 * n + (c.toNat - 48)) 0))
  else none

/-- ClientStoreItem embeds one row of the client table with the column
types of the DDL (`id` is a `VARCHAR(255)` holding whatever string
`Create` inserted). -/
structure ClientStoreItem where
  id : String
  secret : String
  domain : String
  data : Json
  createdAt : GoTime

/-- ClientDB is the state of the client table in insertion order. -/
abbrev ClientDB := List ClientStoreItem

namespace ClientStore

/-- Embeds `ClientStore.Create`: marshal the client record (never fails
for this concrete model) and insert one row; the primary key on `id`
makes an insert with a duplicate id fail with a constraint violation. -/
def Create (rows : ClientDB) (info : Client) (now : GoTime) :
    Except PgErr ClientDB :=
  if rows.any (fun r => r.id == info.id) then
    .error (.fault "ERROR: duplicate key value violates unique constraint")
  else
    .ok (rows ++ [{ id := info.id, secret := info.secret, domain := info.domain,
                    data := encodeClient info, createdAt := now }])

/-- Embeds `ClientStore.scanToClientInfo`: a missing row surfaces
`pgx.ErrNoRows`; scanning the text `id` column into the `int64` struct
field fails unless the stored id parses as an integer; then the data blob
is unmarshalled into the nil `oauth2.ClientInfo` interface. -/
def scanToClientInfo (row : Option ClientStoreItem) :
    Except PgErr (Option Client) :=
  match row with
  | none => .error .noRows
  | some item =>
      match pgxScanTextAsInt64 item.id with
      | none => .error (.fault "cannot scan text value into int64 destination")
      | some _ =>
          match jsonUnmarshalClientInfo item.data with
          | .ok v => .ok v
          | .error e => .error (.fault e)

/-- Embeds `ClientStore.GetByID`: `QueryRow` of
`SELECT * WHERE id = $1` (first matching row in scan order), then
`scanToClientInfo`.  `fault` injects an I/O failure of the query. -/
def GetByID (rows : ClientDB) (id : String) (fault : Option PgErr) :
    Except PgErr (Option Client) :=
  match fault with
  | some e => .error e
  | none => scanToClientInfo (rows.find? (fun r => r.id == id))

end ClientStore

/-- Splits a character list at every comma (accumulator-based, so that
the kernel can evaluate it on the literal DDL strings). -/
def splitCommaAux : List Char → List Char → List (List Char)
  | [], acc => [acc.reverse]
  | c :: rest, acc =>
      if c = ',' then acc.reverse :: splitCommaAux rest []
      else splitCommaAux rest (c :: acc)

/-- Comma-separated pieces of a character list. -/
def splitComma (s : List Char) : List (List Char) :=
  splitCommaAux s []

/-- Whitespace characters occurring in the DDL strings. -/
def isSpaceChar (c : Char) : Bool :=
  c = ' ' || c = '\n' || c = '\t' || c = '\r'

/-- Splits a character list into whitespace-separated words. -/
def sqlWordsAux : List Char → List Char → List (List Char)
  | [], acc => if acc.isEmpty then [] else [acc.reverse]
  | c :: rest, acc =>
      if isSpaceChar c then
        if acc.isEmpty then sqlWordsAux rest []
        else acc.reverse :: sqlWordsAux rest []
      else sqlWordsAux rest (c :: acc)

/-- Words of a fragment of SQL text, separated by any whitespace. -/
def sqlWords (s : List Char) : List (List Char) :=
  sqlWordsAux s []

/-- Character allowed in a SQL identifier here: letter, digit, underscore. -/
def isSqlIdentChar (c : Char) : Bool :=
  c.isAlphanum || c == '_'

/-- Checks a SQL identifier (column name). -/
def isSqlIdent (w : List Char) : Bool :=
  !w.isEmpty && w.all isSqlIdentChar

/-- Column types appearing in the two CREATE TABLE statements of this
repository; anything else is a parse error for this schema. -/
def sqlTypeOk (w : List Char) : Bool :=
  ["BIGSERIAL", "TEXT", "JSONB", "TIMESTAMPTZ", "VARCHAR(255)"].any
    (fun t => w == t.data)

/-- Words allowed after the type inside one column definition (the
column-constraint vocabulary used by this schema). -/
def sqlConstraintWordOk (w : List Char) : Bool :=
  ["NOT", "NULL", "PRIMARY", "KEY"].any (fun t => w == t.data)

/-- Model of Postgres parsing one column definition: an identifier, a
type, then column-constraint keywords.  Anything else — in particular an
empty definition produced by a trailing comma, or a second column name
following a constraint because a comma is missing — is a syntax error. -/
def sqlColumnDefOk (piece : List Char) : Bool :=
  match sqlWords piece with
  | name :: ty :: rest => isSqlIdent name && sqlTypeOk ty && rest.all sqlConstraintWordOk
  | _ => false

/-- Model of Postgres parsing the comma-separated column list of a
CREATE TABLE statement. -/
def sqlColumnListOk (s : String) : Bool :=
  (splitComma s.data).all sqlColumnDefOk

/-- Verbatim column list of the token table CREATE TABLE statement
(token_store.go, `InitTable`). -/
def tokenStoreColumnSQL : String :=
  "\n\t\t\tid            BIGSERIAL PRIMARY KEY NOT NULL,\n\t\t\tcode          TEXT                  NOT NULL,\n\t\t\taccess_token  TEXT                  NOT NULL,\n\t\t\trefresh_token TEXT                  NOT NULL,\n\t\t\tdata          JSONB                 NOT NULL,\n\t\t\tcreated_at    TIMESTAMPTZ           NOT NULL,\n\t\t\texpires_at    TIMESTAMPTZ           NOT NULL\n\t\t"

/-- Verbatim column list of the client table CREATE TABLE statement
(client_store.go, `InitTable`): note the missing comma after
`data JSONB NOT NULL` and the trailing comma after the `created_at`
definition. -/
def clientStoreColumnSQL : String :=
  "\n\t\t\tid     VARCHAR(255) PRIMARY KEY,\n\t\t\tsecret VARCHAR(255) NOT NULL,\n\t\t\tdomain VARCHAR(255) NOT NULL,\n\t\t\tdata   JSONB NOT NULL\n\t\t\tcreated_at    TIMESTAMPTZ NOT NULL,\n\t\t"

/-- Schema is the DDL-visible state: which tables and which indexes
exist. -/
structure Schema where
  tables : List String
  indexes : List String
deriving DecidableEq, Repr

/-- Model of executing `CREATE TABLE IF NOT EXISTS name (columns)`: a
malformed column list is a syntax error reported by the server and the
schema is untouched; otherwise the statement creates the table when
absent and is a successful no-op when present. -/
def createTableIfNotExists (sch : Schema) (name : String) (columnSQL : String) :
    Except PgErr Schema :=
  if sqlColumnListOk columnSQL then
    .ok (if name ∈ sch.tables then sch
         else { sch with tables := name :: sch.tables })
  else
    .error (.fault "ERROR: syntax error in CREATE TABLE column list")

/-- Model of executing `CREATE INDEX IF NOT EXISTS idx ON table (col)`:
creates the index when absent, successful no-op when present. -/
def createIndexIfNotExists (sch : Schema) (idx : String) : Schema :=
  if idx ∈ sch.indexes then sch else { sch with indexes := idx :: sch.indexes }

namespace TokenStore

/-- Embeds `TokenStore.InitTable`: one `Exec` of a script holding the
CREATE TABLE statement (with the verbatim column list of the source) and
the four CREATE INDEX statements on code, access token, refresh token and
expiry; a parse error of the leading statement aborts the script and is
returned. -/
def InitTable (sch : Schema) (table : String) : Except PgErr Schema :=
  match createTableIfNotExists sch table tokenStoreColumnSQL with
  | .error e => .error e
  | .ok s1 =>
      let s2 := createIndexIfNotExists s1 ("idx_" ++ table ++ "_code_idx")
      let s3 := createIndexIfNotExists s2 ("idx_" ++ table ++ "_access_idx")
      let s4 := createIndexIfNotExists s3 ("idx_" ++ table ++ "_refresh_idx")
      let s5 := createIndexIfNotExists s4 ("idx_" ++ table ++ "_expires_idx")
      .ok s5

end TokenStore

namespace ClientStore

/-- Embeds `ClientStore.InitTable`: one `Exec` of a script holding the
CREATE TABLE statement (with the verbatim, malformed column list of the
source) and the CREATE INDEX statement on `domain`. -/
def InitTable (sch : Schema) (table : String) : Except PgErr Schema :=
  match createTableIfNotExists sch table clientStoreColumnSQL with
  | .error e => .error e
  | .ok s1 => .ok (createIndexIfNotExists s1 (table ++ "_domain_idx"))

end ClientStore

/-- StoreErr embeds the three sentinel errors of `errors.go`. -/
inductive StoreErr where
  | errNoTable : StoreErr
  | errNoConnPool : StoreErr
  | errNoLogger : StoreErr
deriving DecidableEq, Repr

/-- Logger models a value of the `Logger` interface; `noopLogger` is the
default `NoopLogger`. -/
inductive Logger where
  | noopLogger : Logger
  | custom : String → Logger
deriving DecidableEq, Repr

/-- PgxPool models a (non-nil) `*pgxpool.Pool` handle; a nil pool pointer
is `Option.none` at the use sites. -/
structure PgxPool where
  handle : Nat
deriving DecidableEq, Repr

/-- TokenStoreState embeds the configurable fields of the `TokenStore`
struct that construction manipulates. -/
structure TokenStoreState where
  pool : Option PgxPool
  table : String
  logger : Logger
  cleanupInterval : GoDuration
deriving DecidableEq, Repr

/-- TokenStoreOption embeds the four option constructors of
`token_store.go`; nullable pointer arguments are `Option`s. -/
inductive TokenStoreOption where
  | withTokenStoreTable : String → TokenStoreOption
  | withTokenStoreConnPool : Option PgxPool → TokenStoreOption
  | withTokenStoreCleanupInterval : GoDuration → TokenStoreOption
  | withTokenStoreLogger : Option Logger → TokenStoreOption
deriving DecidableEq, Repr

/-- Embeds applying one token store option closure to the store under
construction, mirroring each `WithTokenStore*` function body. -/
def applyTokenStoreOption (s : TokenStoreState) :
    TokenStoreOption → Except StoreErr TokenStoreState
  | .withTokenStoreTable table =>
      if table = "" then .error .errNoTable else .ok { s with table := table }
  | .withTokenStoreConnPool pool =>
      match pool with
      | none => .error .errNoConnPool
      | some p => .ok { s with pool := some p }
  | .withTokenStoreCleanupInterval interval =>
      .ok { s with cleanupInterval := interval }
  | .withTokenStoreLogger logger =>
      match logger with
      | none => .error .errNoLogger
      | some l => .ok { s with logger := l }

/-- Embeds the option loop of `NewTokenStore`: options run in order and
the first failing option aborts with its error. -/
def applyTokenStoreOptions (s : TokenStoreState) :
    List TokenStoreOption → Except StoreErr TokenStoreState
  | [] => .ok s
  | o :: rest =>
      match applyTokenStoreOption s o with
      | .ok s1 => applyTokenStoreOptions s1 rest
      | .error e => .error e

/-- Default state `NewTokenStore` starts from: nil pool, default table
name, no-op logger, zero cleanup interval. -/
def defaultTokenStoreState : TokenStoreState :=
  { pool := none, table := "oauth2_tokens", logger := .noopLogger,
    cleanupInterval := 0 }

/-- Embeds `NewTokenStore`: apply the options in order, then fail with
`ErrNoConnPool` when the pool is still nil; otherwise the store is
returned (after `InitCleanup`, which returns nothing). -/
def NewTokenStore (opts : List TokenStoreOption) :
    Except StoreErr TokenStoreState :=
  match applyTokenStoreOptions defaultTokenStoreState opts with
  | .error e => .error e
  | .ok s => if s.pool = none then .error .errNoConnPool else .ok s

/-- ClientStoreState embeds the configurable fields of the `ClientStore`
struct. -/
structure ClientStoreState where
  pool : Option PgxPool
  table : String
  logger : Logger
deriving DecidableEq, Repr

/-- ClientStoreOption embeds the three option constructors of
`client_store.go`. -/
inductive ClientStoreOption where
  | withClientStoreTable : String → ClientStoreOption
  | withClientStoreConnPool : Option PgxPool → ClientStoreOption
  | withClientStoreLogger : Option Logger → ClientStoreOption
deriving DecidableEq, Repr

/-- Embeds applying one client store option closure, mirroring each
`WithClientStore*` function body. -/
def applyClientStoreOption (s : ClientStoreState) :
    ClientStoreOption → Except StoreErr ClientStoreState
  | .withClientStoreTable table =>
      if table = "" then .error .errNoTable else .ok { s with table := table }
  | .withClientStoreConnPool pool =>
      match pool with
      | none => .error .errNoConnPool
      | some p => .ok { s with pool := some p }
  | .withClientStoreLogger logger =>
      match logger with
      | none => .error .errNoLogger
      | some l => .ok { s with logger := l }

/-- Embeds the option loop of `NewClientStore`. -/
def applyClientStoreOptions (s : ClientStoreState) :
    List ClientStoreOption → Except StoreErr ClientStoreState
  | [] => .ok s
  | o :: rest =>
      match applyClientStoreOption s o with
      | .ok s1 => applyClientStoreOptions s1 rest
      | .error e => .error e

/-- Default state `NewClientStore` starts from. -/
def defaultClientStoreState : ClientStoreState :=
  { pool := none, table := "oauth2_clients", logger := .noopLogger }

/-- Embeds `NewClientStore`: apply the options in order, then fail with
`ErrNoConnPool` when the pool is still nil. -/
def NewClientStore (opts : List ClientStoreOption) :
    Except StoreErr ClientStoreState :=
  match applyClientStoreOptions defaultClientStoreState opts with
  | .error e => .error e
  | .ok s => if s.pool = none then .error .errNoConnPool else .ok s

/-- Marks the token store options that configure the connection pool. -/
def isTokenPoolOption : TokenStoreOption → Bool
  | .withTokenStoreConnPool _ => true
  | _ => false

/-- Marks the client store options that configure the connection pool. -/
def isClientPoolOption : ClientStoreOption → Bool
  | .withClientStoreConnPool _ => true
  | _ => false

/-- Error a token store option fails with, independent of the state it is
applied to (`none` when the option always succeeds). -/
def tokenOptionError : TokenStoreOption → Option StoreErr
  | .withTokenStoreTable table => if table = "" then some .errNoTable else none
  | .withTokenStoreConnPool pool => if pool.isNone then some .errNoConnPool else none
  | .withTokenStoreCleanupInterval _ => none
  | .withTokenStoreLogger logger => if logger.isNone then some .errNoLogger else none

/-- Error a client store option fails with (`none` when it succeeds). -/
def clientOptionError : ClientStoreOption → Option StoreErr
  | .withClientStoreTable table => if table = "" then some .errNoTable else none
  | .withClientStoreConnPool pool => if pool.isNone then some .errNoConnPool else none
  | .withClientStoreLogger logger => if logger.isNone then some .errNoLogger else none

/-- Sample token populating all three grant strings (the code wins the
grant-type dispatch of `Create`). -/
def tokCode : Token :=
  { clientID := "c1", userID := "u1", redirectURI := "https://cb",
    scope := "read", code := "authz-1", codeCreateAt := 100, codeExpiresIn := 60,
    access := "acc-1", accessCreateAt := 200, accessExpiresIn := 30,
    refresh := "ref-1", refreshCreateAt := 300, refreshExpiresIn := 90 }

/-- Sample access-only token (no code, no refresh). -/
def tokAccessOnly : Token :=
  { tokCode with code := "", refresh := "" }

/-- Sample access+refresh token (no code). -/
def tokAccessRefresh : Token :=
  { tokCode with code := "" }

/-- Sample row of the token table. -/
def rowAbc : TokenStoreItem :=
  { id := 1, code := "abc", access := "at", refresh := "rt",
    data := encodeToken tokCode, createdAt := 0, expiresAt := 10 }

/-- Sample client whose id happens to parse as an integer. -/
def clientNum : Client :=
  { id := "42", secret := "s3cr3t", domain := "example.com",
    isPublic := false, userID := "u1" }

/-- Sample client with an ordinary, non-numeric id. -/
def clientStr : Client :=
  { clientNum with id := "client-1" }

/-- Client table after `Create` of `clientNum` on an empty table. -/
def clientRowsNum : ClientDB :=
  [{ id := "42", secret := "s3cr3t", domain := "example.com",
     data := encodeClient clientNum, createdAt := 0 }]

/-- Client table after `Create` of `clientStr` on an empty table. -/
def clientRowsStr : ClientDB :=
  [{ id := "client-1", secret := "s3cr3t", domain := "example.com",
     data := encodeClient clientStr, createdAt := 0 }]

/-! Helper lemmas shared by the claim theorems. -/

/-- Decoding inverts encoding for the token metadata blob. -/
lemma decodeToken_encodeToken (t : Token) : decodeToken (encodeToken t) = .ok t :=
  rfl

/-- Searching an appended list skips a prefix on which the predicate is
false everywhere. -/
lemma find?_append_of_forall_false {α : Type} (p : α → Bool)
    (l1 l2 : List α) (h : ∀ a ∈ l1, p a = false) :
    (l1 ++ l2).find? p = l2.find? p := by
  induction l1 with
  | nil => rfl
  | cons x xs ih =>
      have hx : p x = false := h x (List.mem_cons_self x xs)
      simp only [List.cons_append, List.find?, hx]
      exact ih (fun a ha => h a (List.mem_cons_of_mem x ha))

/-- The data column of a created row is always the marshalled token. -/
lemma createItem_data (t : Token) (now : GoTime) :
    (TokenStore.createItem t now).data = encodeToken t := by
  unfold TokenStore.createItem
  split_ifs <;> rfl

/-- A non-empty code is stored in the code column of the created row. -/
lemma createItem_code (t : Token) (now : GoTime) (h : t.code ≠ "") :
    (TokenStore.createItem t now).code = t.code := by
  unfold TokenStore.createItem
  simp [h]

/-- With no code, a non-empty access token is stored in the access
column of the created row (whether or not a refresh leg is present). -/
lemma createItem_access (t : Token) (now : GoTime) (h : t.code = "")
    (h2 : t.access ≠ "") :
    (TokenStore.createItem t now).access = t.access := by
  unfold TokenStore.createItem
  simp only [h]
  split_ifs <;> simp_all

/-- With no code, a non-empty refresh token is stored in the refresh
column of the created row. -/
lemma createItem_refresh (t : Token) (now : GoTime) (h : t.code = "")
    (h2 : t.refresh ≠ "") :
    (TokenStore.createItem t now).refresh = t.refresh := by
  unfold TokenStore.createItem
  simp only [h]
  split_ifs <;> simp_all

/-- C1: the claim states that for a non-empty key the three `RemoveBy*`
operations return a nil error both when the delete succeeds and when it
affects no rows, and surface any other failure.  Evaluating the embedded
bodies refutes the success half: `Exec` of a successful `DELETE` returns
a nil error, `errors.Is(nil, pgx.ErrNoRows)` is false, so the error
branch is taken and `err.Error()` dereferences the nil error — the call
panics instead of returning nil (for every non-empty key; affecting no
rows also yields a nil error from `Exec` and panics the same way).  A
non-nil failure other than `ErrNoRows` is indeed returned, as the last
conjunct shows. -/
theorem claim_C1_remove_success_path_panics :
    (TokenStore.RemoveByCode [rowAbc] "abc" none).result
      = GoResult.crash "runtime error: invalid memory address or nil pointer dereference" ∧
    (TokenStore.RemoveByAccess [rowAbc] "at" none).result
      = GoResult.crash "runtime error: invalid memory address or nil pointer dereference" ∧
    (TokenStore.RemoveByRefresh [rowAbc] "rt" none).result
      = GoResult.crash "runtime error: invalid memory address or nil pointer dereference" ∧
    (TokenStore.RemoveByCode [rowAbc] "abc" (some (.fault "connection reset"))).result
      = GoResult.ok (some (.fault "connection reset")) :=
  ⟨rfl, rfl, rfl, rfl⟩

/-- C2: the claim states that `ClientStore.GetByID` returns a fully
populated client record for every stored row with a matching id.
Evaluating the embedded code refutes it: the data blob written by
`Create` is a JSON object, and `scanToClientInfo` unmarshals it into a
nil value of the non-empty interface type `oauth2.ClientInfo`, which
`encoding/json` always rejects — so a matching row yields an unmarshal
error, never a record (first two conjuncts; for a non-numeric id the scan
of the text id column into the `int64` struct field already fails).  The
not-found half of the claim does hold (last conjunct). -/
theorem claim_C2_get_by_id_never_returns_record :
    ClientStore.Create [] clientNum 0 = .ok clientRowsNum ∧
    ClientStore.GetByID clientRowsNum "42" none
      = .error (.fault "json: cannot unmarshal value into Go value of type oauth2.ClientInfo") ∧
    ClientStore.Create [] clientStr 0 = .ok clientRowsStr ∧
    ClientStore.GetByID clientRowsStr "client-1" none
      = .error (.fault "cannot scan text value into int64 destination") ∧
    ClientStore.GetByID [] "42" none = .error .noRows :=
  ⟨rfl, rfl, rfl, rfl, rfl⟩

/-- C4: for every store state and every fault the pool might have
produced, calling a `RemoveBy*` operation with the empty key leaves the
table unchanged, issues no delete statement, and returns a nil error. -/
theorem claim_C4_empty_key_removals_are_noops (rows : TokenDB)
    (fault : Option PgErr) :
    TokenStore.RemoveByCode rows "" fault
      = { rows := rows, deleteIssued := false, result := .ok none } ∧
    TokenStore.RemoveByAccess rows "" fault
      = { rows := rows, deleteIssued := false, result := .ok none } ∧
    TokenStore.RemoveByRefresh rows "" fault
      = { rows := rows, deleteIssued := false, result := .ok none } :=
  ⟨rfl, rfl, rfl⟩

/-- C3: for every token passed to `TokenStore.Create`, a non-empty code
makes the row expire at the code issue time plus the code TTL regardless
of the access and refresh fields; with an empty code, a non-empty access
leg sets the expiry from the access pair and a non-empty refresh leg then
overwrites it with the refresh pair (refresh wins when both legs are
present). -/
theorem claim_C3_expires_at_dispatch (info : Token) (now : GoTime) :
    (info.code ≠ "" →
        (TokenStore.createItem info now).expiresAt
          = info.codeCreateAt + info.codeExpiresIn) ∧
    (info.code = "" → info.access ≠ "" → info.refresh = "" →
        (TokenStore.createItem info now).expiresAt
          = info.accessCreateAt + info.accessExpiresIn) ∧
    (info.code = "" → info.refresh ≠ "" →
        (TokenStore.createItem info now).expiresAt
          = info.refreshCreateAt + info.refreshExpiresIn) := by
  refine ⟨fun h => ?_, fun h1 h2 h3 => ?_, fun h1 h2 => ?_⟩
  · unfold TokenStore.createItem
    simp [h]
  · unfold TokenStore.createItem
    simp [h1, h2, h3]
  · unfold TokenStore.createItem
    simp only [h1]
    split_ifs <;> simp_all

/-- Witness for C3: the dispatch evaluated on a token with all three
grants (code wins), on an access-only token, and on an access+refresh
token (refresh wins). -/
theorem claim_C3_expires_at_dispatch_witness :
    (TokenStore.createItem tokCode 0).expiresAt
      = tokCode.codeCreateAt + tokCode.codeExpiresIn ∧
    (TokenStore.createItem tokAccessOnly 0).expiresAt
      = tokAccessOnly.accessCreateAt + tokAccessOnly.accessExpiresIn ∧
    (TokenStore.createItem tokAccessRefresh 0).expiresAt
      = tokAccessRefresh.refreshCreateAt + tokAccessRefresh.refreshExpiresIn :=
  ⟨(claim_C3_expires_at_dispatch tokCode 0).1 (by decide),
   (claim_C3_expires_at_dispatch tokAccessOnly 0).2.1 (by decide) (by decide) (by decide),
   (claim_C3_expires_at_dispatch tokAccessRefresh 0).2.2 (by decide) (by decide)⟩

/-- C6: a token inserted by `TokenStore.Create` and looked up by the key
column that `Create` populated (code when non-empty; otherwise access or
refresh) is returned with every field identical to the original token —
the lookup rebuilds it entirely from the stored metadata blob, so
marshal-then-unmarshal round-trips every token field.  The freshness
hypotheses say no earlier row already carries the same key, as lookups
return the first matching row in scan order. -/
theorem claim_C6_create_lookup_roundtrip (rows : TokenDB) (t : Token)
    (now : GoTime) :
    (t.code ≠ "" → (∀ r ∈ rows, r.code ≠ t.code) →
        TokenStore.GetByCode (TokenStore.Create rows t now) t.code none = .ok t) ∧
    (t.code = "" → t.access ≠ "" → (∀ r ∈ rows, r.access ≠ t.access) →
        TokenStore.GetByAccess (TokenStore.Create rows t now) t.access none = .ok t) ∧
    (t.code = "" → t.refresh ≠ "" → (∀ r ∈ rows, r.refresh ≠ t.refresh) →
        TokenStore.GetByRefresh (TokenStore.Create rows t now) t.refresh none = .ok t) := by
  refine ⟨fun hc hfresh => ?_, fun hc ha hfresh => ?_, fun hc hr hfresh => ?_⟩
  · unfold TokenStore.GetByCode TokenStore.Create
    rw [find?_append_of_forall_false _ _ _
      (fun r hrow => by simpa using hfresh r hrow)]
    simp [List.find?, createItem_code t now hc, TokenStore.scanToTokenInfo,
      createItem_data, decodeToken_encodeToken]
  · unfold TokenStore.GetByAccess TokenStore.Create
    rw [find?_append_of_forall_false _ _ _
      (fun r hrow => by simpa using hfresh r hrow)]
    simp [List.find?, createItem_access t now hc ha, TokenStore.scanToTokenInfo,
      createItem_data, decodeToken_encodeToken]
  · unfold TokenStore.GetByRefresh TokenStore.Create
    rw [find?_append_of_forall_false _ _ _
      (fun r hrow => by simpa using hfresh r hrow)]
    simp [List.find?, createItem_refresh t now hc hr, TokenStore.scanToTokenInfo,
      createItem_data, decodeToken_encodeToken]

/-- Witness for C6: the round-trip evaluated on an empty table for a code
grant, an access-only grant and an access+refresh grant. -/
theorem claim_C6_create_lookup_roundtrip_witness :
    TokenStore.GetByCode (TokenStore.Create [] tokCode 0) tokCode.code none
      = .ok tokCode ∧
    TokenStore.GetByAccess (TokenStore.Create [] tokAccessOnly 0)
      tokAccessOnly.access none = .ok tokAccessOnly ∧
    TokenStore.GetByRefresh (TokenStore.Create [] tokAccessRefresh 0)
      tokAccessRefresh.refresh none = .ok tokAccessRefresh :=
  ⟨(claim_C6_create_lookup_roundtrip [] tokCode 0).1 (by decide)
      (by intro r hrow; cases hrow),
   (claim_C6_create_lookup_roundtrip [] tokAccessOnly 0).2.1 (by decide)
      (by decide) (by intro r hrow; cases hrow),
   (claim_C6_create_lookup_roundtrip [] tokAccessRefresh 0).2.2 (by decide)
      (by decide) (by intro r hrow; cases hrow)⟩

/-- C10: the three lookups have no empty-key guard, unlike the removals:
on a table whose first row with an empty code column exists (for example
one written by `Create` for an access-only or access+refresh grant),
`GetByCode("")` matches that row and returns its token rather than a
not-found error, and symmetrically for `GetByAccess("")` and
`GetByRefresh("")` on rows whose respective column is empty. -/
theorem claim_C10_empty_key_lookups_match (pre post : TokenDB)
    (r : TokenStoreItem) (t : Token) (hdec : decodeToken r.data = .ok t) :
    ((∀ p ∈ pre, p.code ≠ "") → r.code = "" →
        TokenStore.GetByCode (pre ++ r :: post) "" none = .ok t) ∧
    ((∀ p ∈ pre, p.access ≠ "") → r.access = "" →
        TokenStore.GetByAccess (pre ++ r :: post) "" none = .ok t) ∧
    ((∀ p ∈ pre, p.refresh ≠ "") → r.refresh = "" →
        TokenStore.GetByRefresh (pre ++ r :: post) "" none = .ok t) := by
  refine ⟨fun hfresh hcol => ?_, fun hfresh hcol => ?_, fun hfresh hcol => ?_⟩
  · unfold TokenStore.GetByCode
    rw [find?_append_of_forall_false _ _ _
      (fun p hp => by simpa using hfresh p hp)]
    simp [List.find?, hcol, TokenStore.scanToTokenInfo, hdec]
  · unfold TokenStore.GetByAccess
    rw [find?_append_of_forall_false _ _ _
      (fun p hp => by simpa using hfresh p hp)]
    simp [List.find?, hcol, TokenStore.scanToTokenInfo, hdec]
  · unfold TokenStore.GetByRefresh
    rw [find?_append_of_forall_false _ _ _
      (fun p hp => by simpa using hfresh p hp)]
    simp [List.find?, hcol, TokenStore.scanToTokenInfo, hdec]

/-- Witness for C10: a row created for an access+refresh grant is
returned by `GetByCode("")`, and a row created for a code grant (whose
access and refresh columns are empty) is returned by `GetByAccess("")`
and `GetByRefresh("")`. -/
theorem claim_C10_empty_key_lookups_match_witness :
    TokenStore.GetByCode ([] ++ TokenStore.createItem tokAccessRefresh 0 :: []) "" none
      = .ok tokAccessRefresh ∧
    TokenStore.GetByAccess ([] ++ TokenStore.createItem tokCode 0 :: []) "" none
      = .ok tokCode ∧
    TokenStore.GetByRefresh ([] ++ TokenStore.createItem tokCode 0 :: []) "" none
      = .ok tokCode :=
  ⟨(claim_C10_empty_key_lookups_match [] [] (TokenStore.createItem tokAccessRefresh 0)
      tokAccessRefresh (by rw [createItem_data]; exact decodeToken_encodeToken _)).1
      (by intro p hp; cases hp) (by rfl),
   (claim_C10_empty_key_lookups_match [] [] (TokenStore.createItem tokCode 0)
      tokCode (by rw [createItem_data]; exact decodeToken_encodeToken _)).2.1
      (by intro p hp; cases hp) (by rfl),
   (claim_C10_empty_key_lookups_match [] [] (TokenStore.createItem tokCode 0)
      tokCode (by rw [createItem_data]; exact decodeToken_encodeToken _)).2.2
      (by intro p hp; cases hp) (by rfl)⟩

/-- Creating an index never changes the table list. -/
lemma createIndexIfNotExists_tables (sch : Schema) (i : String) :
    (createIndexIfNotExists sch i).tables = sch.tables := by
  unfold createIndexIfNotExists
  split <;> rfl

/-- After creating an index it exists. -/
lemma mem_createIndexIfNotExists_self (sch : Schema) (i : String) :
    i ∈ (createIndexIfNotExists sch i).indexes := by
  unfold createIndexIfNotExists
  split
  · assumption
  · exact List.mem_cons_self i sch.indexes

/-- Creating an index preserves existing indexes. -/
lemma mem_createIndexIfNotExists_mono {sch : Schema} (i : String) {j : String}
    (h : j ∈ sch.indexes) : j ∈ (createIndexIfNotExists sch i).indexes := by
  unfold createIndexIfNotExists
  split
  · exact h
  · exact List.mem_cons_of_mem i h

/-- Creating an existing index is a successful no-op. -/
lemma createIndexIfNotExists_of_mem (sch : Schema) (i : String)
    (h : i ∈ sch.indexes) : createIndexIfNotExists sch i = sch := by
  unfold createIndexIfNotExists
  simp [h]

/-- C5: the claim covers both stores.  The token store half holds: its
`InitTable` always succeeds and a second call is a successful no-op that
leaves the schema unchanged (every statement is `IF NOT EXISTS`).  The
client store half is refuted by the source DDL: its CREATE TABLE column
list is malformed (a missing comma after `data JSONB NOT NULL` merges two
column definitions, and a trailing comma leaves an empty one), so every
call to `ClientStore.InitTable` — the first one included — returns a
syntax error and creates nothing. -/
theorem claim_C5_init_table_idempotency (sch : Schema) (table : String) :
    (∃ sch1, TokenStore.InitTable sch table = .ok sch1 ∧
        TokenStore.InitTable sch1 table = .ok sch1) ∧
    ClientStore.InitTable sch table
      = .error (.fault "ERROR: syntax error in CREATE TABLE column list") := by
  constructor
  · have hok : sqlColumnListOk tokenStoreColumnSQL = true := by decide
    obtain ⟨s1, hs1, hs1tab⟩ : ∃ s1,
        createTableIfNotExists sch table tokenStoreColumnSQL = .ok s1 ∧
        table ∈ s1.tables := by
      unfold createTableIfNotExists
      by_cases hmem : table ∈ sch.tables
      · exact ⟨sch, by simp [hok, hmem], hmem⟩
      · exact ⟨{ sch with tables := table :: sch.tables }, by simp [hok, hmem],
          List.mem_cons_self table sch.tables⟩
    refine ⟨createIndexIfNotExists (createIndexIfNotExists (createIndexIfNotExists
        (createIndexIfNotExists s1 ("idx_" ++ table ++ "_code_idx"))
        ("idx_" ++ table ++ "_access_idx")) ("idx_" ++ table ++ "_refresh_idx"))
        ("idx_" ++ table ++ "_expires_idx"), ?_, ?_⟩
    · unfold TokenStore.InitTable
      rw [hs1]
    · have htab : table ∈ (createIndexIfNotExists (createIndexIfNotExists
          (createIndexIfNotExists (createIndexIfNotExists s1
            ("idx_" ++ table ++ "_code_idx")) ("idx_" ++ table ++ "_access_idx"))
          ("idx_" ++ table ++ "_refresh_idx")) ("idx_" ++ table ++ "_expires_idx")).tables := by
        simp only [createIndexIfNotExists_tables]
        exact hs1tab
      have h1 := mem_createIndexIfNotExists_mono ("idx_" ++ table ++ "_expires_idx")
        (mem_createIndexIfNotExists_mono ("idx_" ++ table ++ "_refresh_idx")
          (mem_createIndexIfNotExists_mono ("idx_" ++ table ++ "_access_idx")
            (mem_createIndexIfNotExists_self s1 ("idx_" ++ table ++ "_code_idx"))))
      have h2 := mem_createIndexIfNotExists_mono ("idx_" ++ table ++ "_expires_idx")
        (mem_createIndexIfNotExists_mono ("idx_" ++ table ++ "_refresh_idx")
          (mem_createIndexIfNotExists_self
            (createIndexIfNotExists s1 ("idx_" ++ table ++ "_code_idx"))
            ("idx_" ++ table ++ "_access_idx")))
      have h3 := mem_createIndexIfNotExists_mono ("idx_" ++ table ++ "_expires_idx")
        (mem_createIndexIfNotExists_self
          (createIndexIfNotExists (createIndexIfNotExists s1
            ("idx_" ++ table ++ "_code_idx")) ("idx_" ++ table ++ "_access_idx"))
          ("idx_" ++ table ++ "_refresh_idx"))
      have h4 := mem_createIndexIfNotExists_self (createIndexIfNotExists
        (createIndexIfNotExists (createIndexIfNotExists s1
          ("idx_" ++ table ++ "_code_idx")) ("idx_" ++ table ++ "_access_idx"))
        ("idx_" ++ table ++ "_refresh_idx")) ("idx_" ++ table ++ "_expires_idx")
      have hct : createTableIfNotExists (createIndexIfNotExists (createIndexIfNotExists
          (createIndexIfNotExists (createIndexIfNotExists s1
            ("idx_" ++ table ++ "_code_idx")) ("idx_" ++ table ++ "_access_idx"))
          ("idx_" ++ table ++ "_refresh_idx")) ("idx_" ++ table ++ "_expires_idx"))
          table tokenStoreColumnSQL = .ok (createIndexIfNotExists (createIndexIfNotExists
          (createIndexIfNotExists (createIndexIfNotExists s1
            ("idx_" ++ table ++ "_code_idx")) ("idx_" ++ table ++ "_access_idx"))
          ("idx_" ++ table ++ "_refresh_idx")) ("idx_" ++ table ++ "_expires_idx")) := by
        unfold createTableIfNotExists
        simp [hok, htab]
      unfold TokenStore.InitTable
      rw [hct]
      simp only []
      rw [createIndexIfNotExists_of_mem _ _ h1, createIndexIfNotExists_of_mem _ _ h2,
          createIndexIfNotExists_of_mem _ _ h3, createIndexIfNotExists_of_mem _ _ h4]
  · have hbad : sqlColumnListOk clientStoreColumnSQL = false := by decide
    unfold ClientStore.InitTable createTableIfNotExists
    simp [hbad]

/-- Applying one token store option either fails with its state-independent
error, or succeeds; a successful non-pool option leaves the pool field
unchanged. -/
lemma applyTokenStoreOption_cases (s : TokenStoreState) (o : TokenStoreOption) :
    (∃ e, tokenOptionError o = some e ∧ applyTokenStoreOption s o = .error e) ∨
    (tokenOptionError o = none ∧ ∃ s1, applyTokenStoreOption s o = .ok s1 ∧
        (isTokenPoolOption o = false → s1.pool = s.pool)) := by
  cases o with
  | withTokenStoreTable t =>
      by_cases ht : t = ""
      · exact Or.inl ⟨.errNoTable, by simp [tokenOptionError, ht],
          by simp [applyTokenStoreOption, ht]⟩
      · exact Or.inr ⟨by simp [tokenOptionError, ht],
          { s with table := t }, by simp [applyTokenStoreOption, ht], fun _ => rfl⟩
  | withTokenStoreConnPool p =>
      cases p with
      | none => exact Or.inl ⟨.errNoConnPool, by simp [tokenOptionError],
          by simp [applyTokenStoreOption]⟩
      | some pl => exact Or.inr ⟨by simp [tokenOptionError],
          { s with pool := some pl }, by simp [applyTokenStoreOption],
          fun hfalse => by simp [isTokenPoolOption] at hfalse⟩
  | withTokenStoreCleanupInterval i =>
      exact Or.inr ⟨rfl, { s with cleanupInterval := i },
        by simp [applyTokenStoreOption], fun _ => rfl⟩
  | withTokenStoreLogger l =>
      cases l with
      | none => exact Or.inl ⟨.errNoLogger, by simp [tokenOptionError],
          by simp [applyTokenStoreOption]⟩
      | some lg => exact Or.inr ⟨by simp [tokenOptionError],
          { s with logger := lg }, by simp [applyTokenStoreOption], fun _ => rfl⟩

/-- Applying one client store option: same case split as for the token
store. -/
lemma applyClientStoreOption_cases (s : ClientStoreState) (o : ClientStoreOption) :
    (∃ e, clientOptionError o = some e ∧ applyClientStoreOption s o = .error e) ∨
    (clientOptionError o = none ∧ ∃ s1, applyClientStoreOption s o = .ok s1 ∧
        (isClientPoolOption o = false → s1.pool = s.pool)) := by
  cases o with
  | withClientStoreTable t =>
      by_cases ht : t = ""
      · exact Or.inl ⟨.errNoTable, by simp [clientOptionError, ht],
          by simp [applyClientStoreOption, ht]⟩
      · exact Or.inr ⟨by simp [clientOptionError, ht],
          { s with table := t }, by simp [applyClientStoreOption, ht], fun _ => rfl⟩
  | withClientStoreConnPool p =>
      cases p with
      | none => exact Or.inl ⟨.errNoConnPool, by simp [clientOptionError],
          by simp [applyClientStoreOption]⟩
      | some pl => exact Or.inr ⟨by simp [clientOptionError],
          { s with pool := some pl }, by simp [applyClientStoreOption],
          fun hfalse => by simp [isClientPoolOption] at hfalse⟩
  | withClientStoreLogger l =>
      cases l with
      | none => exact Or.inl ⟨.errNoLogger, by simp [clientOptionError],
          by simp [applyClientStoreOption]⟩
      | some lg => exact Or.inr ⟨by simp [clientOptionError],
          { s with logger := lg }, by simp [applyClientStoreOption], fun _ => rfl⟩

/-- Folding token store options from a pool-less state, when no option
configures the pool: the result is an error or a pool-less state, and if
every option succeeds it is a pool-less state. -/
lemma applyTokenStoreOptions_no_pool (opts : List TokenStoreOption) :
    ∀ s : TokenStoreState, s.pool = none →
      (∀ o ∈ opts, isTokenPoolOption o = false) →
      ((∃ e, applyTokenStoreOptions s opts = .error e) ∨
        (∃ s1, applyTokenStoreOptions s opts = .ok s1 ∧ s1.pool = none)) ∧
      ((∀ o ∈ opts, tokenOptionError o = none) →
        ∃ s1, applyTokenStoreOptions s opts = .ok s1 ∧ s1.pool = none) := by
  induction opts with
  | nil =>
      intro s hpool _
      exact ⟨Or.inr ⟨s, rfl, hpool⟩, fun _ => ⟨s, rfl, hpool⟩⟩
  | cons o rest ih =>
      intro s hpool hno
      have hno_o : isTokenPoolOption o = false := hno o (List.mem_cons_self o rest)
      have hno_rest : ∀ o1 ∈ rest, isTokenPoolOption o1 = false :=
        fun o1 h1 => hno o1 (List.mem_cons_of_mem o h1)
      rcases applyTokenStoreOption_cases s o with ⟨e, herr, happ⟩ | ⟨hok, s1, happ, hpres⟩
      · refine ⟨Or.inl ⟨e, ?_⟩, fun hsucc => ?_⟩
        · unfold applyTokenStoreOptions
          rw [happ]
        · have := hsucc o (List.mem_cons_self o rest)
          rw [this] at herr
          cases herr
      · have hpool1 : s1.pool = none := (hpres hno_o).trans hpool
        have ihres := ih s1 hpool1 hno_rest
        refine ⟨?_, fun hsucc => ?_⟩
        · rcases ihres.1 with ⟨e, hrest⟩ | ⟨s2, hrest, hpool2⟩
          · exact Or.inl ⟨e, by unfold applyTokenStoreOptions; rw [happ]; exact hrest⟩
          · exact Or.inr ⟨s2, by unfold applyTokenStoreOptions; rw [happ]; exact hrest, hpool2⟩
        · obtain ⟨s2, hrest, hpool2⟩ := ihres.2
            (fun o1 h1 => hsucc o1 (List.mem_cons_of_mem o h1))
          exact ⟨s2, by unfold applyTokenStoreOptions; rw [happ]; exact hrest, hpool2⟩

/-- Client store version of `applyTokenStoreOptions_no_pool`. -/
lemma applyClientStoreOptions_no_pool (opts : List ClientStoreOption) :
    ∀ s : ClientStoreState, s.pool = none →
      (∀ o ∈ opts, isClientPoolOption o = false) →
      ((∃ e, applyClientStoreOptions s opts = .error e) ∨
        (∃ s1, applyClientStoreOptions s opts = .ok s1 ∧ s1.pool = none)) ∧
      ((∀ o ∈ opts, clientOptionError o = none) →
        ∃ s1, applyClientStoreOptions s opts = .ok s1 ∧ s1.pool = none) := by
  induction opts with
  | nil =>
      intro s hpool _
      exact ⟨Or.inr ⟨s, rfl, hpool⟩, fun _ => ⟨s, rfl, hpool⟩⟩
  | cons o rest ih =>
      intro s hpool hno
      have hno_o : isClientPoolOption o = false := hno o (List.mem_cons_self o rest)
      have hno_rest : ∀ o1 ∈ rest, isClientPoolOption o1 = false :=
        fun o1 h1 => hno o1 (List.mem_cons_of_mem o h1)
      rcases applyClientStoreOption_cases s o with ⟨e, herr, happ⟩ | ⟨hok, s1, happ, hpres⟩
      · refine ⟨Or.inl ⟨e, ?_⟩, fun hsucc => ?_⟩
        · unfold applyClientStoreOptions
          rw [happ]
        · have := hsucc o (List.mem_cons_self o rest)
          rw [this] at herr
          cases herr
      · have hpool1 : s1.pool = none := (hpres hno_o).trans hpool
        have ihres := ih s1 hpool1 hno_rest
        refine ⟨?_, fun hsucc => ?_⟩
        · rcases ihres.1 with ⟨e, hrest⟩ | ⟨s2, hrest, hpool2⟩
          · exact Or.inl ⟨e, by unfold applyClientStoreOptions; rw [happ]; exact hrest⟩
          · exact Or.inr ⟨s2, by unfold applyClientStoreOptions; rw [happ]; exact hrest, hpool2⟩
        · obtain ⟨s2, hrest, hpool2⟩ := ihres.2
            (fun o1 h1 => hsucc o1 (List.mem_cons_of_mem o h1))
          exact ⟨s2, by unfold applyClientStoreOptions; rw [happ]; exact hrest, hpool2⟩

/-- C7, counterexample: the claim says that with no connection-pool
option, construction returns specifically the no-connection-pool error
for every combination of the other options.  The option list holding only
`WithTokenStoreTable("")` contains no pool option, yet `NewTokenStore`
returns `ErrNoTable`, which is a different sentinel. -/
theorem claim_C7_counterexample :
    isTokenPoolOption (TokenStoreOption.withTokenStoreTable "") = false ∧
    NewTokenStore [TokenStoreOption.withTokenStoreTable ""] = .error .errNoTable ∧
    StoreErr.errNoTable ≠ StoreErr.errNoConnPool :=
  ⟨rfl, rfl, by decide⟩

/-- C7, amended: `NewTokenStore` (and likewise `NewClientStore`) called
without a connection-pool option always returns a configuration error and
no store; when every supplied option itself succeeds, that error is
exactly the no-connection-pool sentinel. -/
theorem claim_C7_amended_no_pool_no_store (topts : List TokenStoreOption)
    (copts : List ClientStoreOption)
    (htno : ∀ o ∈ topts, isTokenPoolOption o = false)
    (hcno : ∀ o ∈ copts, isClientPoolOption o = false) :
    (∃ e, NewTokenStore topts = .error e) ∧
    ((∀ o ∈ topts, tokenOptionError o = none) →
        NewTokenStore topts = .error .errNoConnPool) ∧
    (∃ e, NewClientStore copts = .error e) ∧
    ((∀ o ∈ copts, clientOptionError o = none) →
        NewClientStore copts = .error .errNoConnPool) := by
  have htok := applyTokenStoreOptions_no_pool topts defaultTokenStoreState rfl htno
  have hcli := applyClientStoreOptions_no_pool copts defaultClientStoreState rfl hcno
  refine ⟨?_, fun hsucc => ?_, ?_, fun hsucc => ?_⟩
  · rcases htok.1 with ⟨e, happ⟩ | ⟨s1, happ, hpool⟩
    · exact ⟨e, by unfold NewTokenStore; rw [happ]⟩
    · exact ⟨.errNoConnPool, by unfold NewTokenStore; rw [happ]; simp [hpool]⟩
  · obtain ⟨s1, happ, hpool⟩ := htok.2 hsucc
    unfold NewTokenStore
    rw [happ]
    simp [hpool]
  · rcases hcli.1 with ⟨e, happ⟩ | ⟨s1, happ, hpool⟩
    · exact ⟨e, by unfold NewClientStore; rw [happ]⟩
    · exact ⟨.errNoConnPool, by unfold NewClientStore; rw [happ]; simp [hpool]⟩
  · obtain ⟨s1, happ, hpool⟩ := hcli.2 hsucc
    unfold NewClientStore
    rw [happ]
    simp [hpool]

/-- Witness for the amended C7: both constructors evaluated on option
lists with no pool option whose options all succeed. -/
theorem claim_C7_amended_no_pool_no_store_witness :
    NewTokenStore [TokenStoreOption.withTokenStoreTable "tokens",
      TokenStoreOption.withTokenStoreCleanupInterval 5]
      = .error .errNoConnPool ∧
    NewClientStore [ClientStoreOption.withClientStoreTable "clients"]
      = .error .errNoConnPool := by
  have h := claim_C7_amended_no_pool_no_store
    [TokenStoreOption.withTokenStoreTable "tokens",
      TokenStoreOption.withTokenStoreCleanupInterval 5]
    [ClientStoreOption.withClientStoreTable "clients"]
    (by decide) (by decide)
  exact ⟨h.2.1 (by decide), h.2.2.2 (by decide)⟩

/-- Folding token store options across a prefix of succeeding options
followed by a failing option: the failing option's own error is returned,
whatever options follow it. -/
lemma applyTokenStoreOptions_first_failure (pre : List TokenStoreOption) :
    ∀ s : TokenStoreState, (∀ o ∈ pre, tokenOptionError o = none) →
      ∀ (o : TokenStoreOption) (e : StoreErr) (post : List TokenStoreOption),
        tokenOptionError o = some e →
        applyTokenStoreOptions s (pre ++ o :: post) = .error e := by
  induction pre with
  | nil =>
      intro s _ o e post ho
      rcases applyTokenStoreOption_cases s o with ⟨e1, herr, happ⟩ | ⟨hok, s1, happ, _⟩
      · rw [ho] at herr
        cases herr
        rw [List.nil_append]
        unfold applyTokenStoreOptions
        rw [happ]
      · rw [ho] at hok
        cases hok
  | cons p rest ih =>
      intro s hpre o e post ho
      rcases applyTokenStoreOption_cases s p with ⟨e1, herr, happ⟩ | ⟨hok, s1, happ, _⟩
      · rw [hpre p (List.mem_cons_self p rest)] at herr
        cases herr
      · have := ih s1 (fun o1 h1 => hpre o1 (List.mem_cons_of_mem p h1)) o e post ho
        rw [List.cons_append]
        unfold applyTokenStoreOptions
        rw [happ]
        exact this

/-- Client store version of `applyTokenStoreOptions_first_failure`. -/
lemma applyClientStoreOptions_first_failure (pre : List ClientStoreOption) :
    ∀ s : ClientStoreState, (∀ o ∈ pre, clientOptionError o = none) →
      ∀ (o : ClientStoreOption) (e : StoreErr) (post : List ClientStoreOption),
        clientOptionError o = some e →
        applyClientStoreOptions s (pre ++ o :: post) = .error e := by
  induction pre with
  | nil =>
      intro s _ o e post ho
      rcases applyClientStoreOption_cases s o with ⟨e1, herr, happ⟩ | ⟨hok, s1, happ, _⟩
      · rw [ho] at herr
        cases herr
        rw [List.nil_append]
        unfold applyClientStoreOptions
        rw [happ]
      · rw [ho] at hok
        cases hok
  | cons p rest ih =>
      intro s hpre o e post ho
      rcases applyClientStoreOption_cases s p with ⟨e1, herr, happ⟩ | ⟨hok, s1, happ, _⟩
      · rw [hpre p (List.mem_cons_self p rest)] at herr
        cases herr
      · have := ih s1 (fun o1 h1 => hpre o1 (List.mem_cons_of_mem p h1)) o e post ho
        rw [List.cons_append]
        unfold applyClientStoreOptions
        rw [happ]
        exact this

/-- C8: both constructors apply their options in the order given, and the
first failing option (empty table name, nil connection pool, nil logger)
aborts construction with its specific error: no store is returned, and
the options after the failing one are never applied — the outcome is the
same for every choice of `tpost` / `cpost`. -/
theorem claim_C8_options_in_order_first_failure_aborts
    (tpre tpost : List TokenStoreOption) (to1 : TokenStoreOption) (te : StoreErr)
    (htpre : ∀ o ∈ tpre, tokenOptionError o = none)
    (hto : tokenOptionError to1 = some te)
    (cpre cpost : List ClientStoreOption) (co1 : ClientStoreOption) (ce : StoreErr)
    (hcpre : ∀ o ∈ cpre, clientOptionError o = none)
    (hco : clientOptionError co1 = some ce) :
    NewTokenStore (tpre ++ to1 :: tpost) = .error te ∧
    NewClientStore (cpre ++ co1 :: cpost) = .error ce := by
  constructor
  · unfold NewTokenStore
    rw [applyTokenStoreOptions_first_failure tpre defaultTokenStoreState htpre
      to1 te tpost hto]
  · unfold NewClientStore
    rw [applyClientStoreOptions_first_failure cpre defaultClientStoreState hcpre
      co1 ce cpost hco]

/-- Witness for C8: a succeeding prefix, then a nil-logger option, then a
trailing option that would succeed — construction stops at the logger
error for the token store, and at a nil-pool error for the client store. -/
theorem claim_C8_options_in_order_first_failure_aborts_witness :
    NewTokenStore ([TokenStoreOption.withTokenStoreCleanupInterval 3] ++
        TokenStoreOption.withTokenStoreLogger none ::
        [TokenStoreOption.withTokenStoreTable "t"]) = .error .errNoLogger ∧
    NewClientStore ([ClientStoreOption.withClientStoreTable "c"] ++
        ClientStoreOption.withClientStoreConnPool none ::
        [ClientStoreOption.withClientStoreLogger (some (.custom "log"))])
      = .error .errNoConnPool :=
  claim_C8_options_in_order_first_failure_aborts
    [TokenStoreOption.withTokenStoreCleanupInterval 3]
    [TokenStoreOption.withTokenStoreTable "t"]
    (TokenStoreOption.withTokenStoreLogger none) .errNoLogger
    (by decide) (by decide)
    [ClientStoreOption.withClientStoreTable "c"]
    [ClientStoreOption.withClientStoreLogger (some (.custom "log"))]
    (ClientStoreOption.withClientStoreConnPool none) .errNoConnPool
    (by decide) (by decide)

/-- C9: once `InitCleanup` has started the sweep (positive configured
interval), the loop body runs `cleanExpiredTokens` on every tick and only
logs a failed iteration — no error reaches any caller (the loop returns
no error channel at all), and no failure stops the loop: over any finite
prefix of ticks, the number of sweep iterations equals the number of
ticks whatever faults occurred, and each failed iteration contributes
exactly one error-level log entry. -/
theorem claim_C9_sweep_errors_logged_loop_continues (interval : GoDuration)
    (hpos : 0 < interval) :
    TokenStore.InitCleanup interval = true ∧
    ∀ (st : SweepState) (ticks : List (GoTime × Option PgErr)),
      (TokenStore.runCleanupLoop st ticks).sweeps = st.sweeps + ticks.length ∧
      (TokenStore.runCleanupLoop st ticks).loggedErrors
        = st.loggedErrors + (ticks.filter (fun tk => tk.2.isSome)).length := by
  refine ⟨by simp [TokenStore.InitCleanup, hpos], fun st ticks => ?_⟩
  induction ticks generalizing st with
  | nil => simp [TokenStore.runCleanupLoop]
  | cons tk rest ih =>
      have hstep := ih (TokenStore.sweepTick st tk)
      unfold TokenStore.runCleanupLoop at hstep ⊢
      rw [List.foldl_cons]
      refine ⟨?_, ?_⟩
      · rw [hstep.1]
        cases htk : tk.2 <;>
          simp [TokenStore.sweepTick, TokenStore.cleanExpiredTokens, htk] <;> omega
      · rw [hstep.2]
        cases htk : tk.2 with
        | none =>
            simp [TokenStore.sweepTick, TokenStore.cleanExpiredTokens, htk,
              List.filter_cons]
        | some e =>
            simp [TokenStore.sweepTick, TokenStore.cleanExpiredTokens, htk,
              List.filter_cons]
            omega

/-- Witness for C9: a three-tick run whose middle sweep faults still
performs three sweeps and logs exactly one error. -/
theorem claim_C9_sweep_errors_logged_loop_continues_witness :
    TokenStore.InitCleanup 1 = true ∧
    (TokenStore.runCleanupLoop { rows := [], sweeps := 0, loggedErrors := 0 }
        [(0, none), (1, some (.fault "boom")), (2, none)]).sweeps = 0 + 3 ∧
    (TokenStore.runCleanupLoop { rows := [], sweeps := 0, loggedErrors := 0 }
        [(0, none), (1, some (.fault "boom")), (2, none)]).loggedErrors = 0 + 1 := by
  have h := claim_C9_sweep_errors_logged_loop_continues 1 (by decide)
  exact ⟨h.1,
    (h.2 { rows := [], sweeps := 0, loggedErrors := 0 }
      [(0, none), (1, some (.fault "boom")), (2, none)]).1,
    (h.2 { rows := [], sweeps := 0, loggedErrors := 0 }
      [(0, none), (1, some (.fault "boom")), (2, none)]).2⟩
